import Mathlib

/-!
Verification of the SAGE generated-plan contract validator
(`scripts/validate_generated_plan_contract.py`).

The validator receives an already-parsed JSON document (a tree of
mappings / sequences / scalars) and returns an ordered list of violation
messages.  We embed the document tree as `PyVal`, the Python dictionary
passed to `validate` as an association list, and the validator itself as
a function into `Except String (List String)`: the `.error` constructor
models a Python exception escaping the function (e.g. `AttributeError`
when `.get` is called on a non-mapping), while `.ok errs` models a normal
return with the accumulated violation list.
-/

namespace Sage

/-- A parsed JSON value, as produced by `json.loads` and consumed by the
validator.  Numbers are modelled as integers: the contract never inspects
numeric field values, so the distinction between ints and floats is
irrelevant to every property proved here. -/
inductive PyVal where
  | pstr (s : String)
  | pint (n : Int)
  | pbool (b : Bool)
  | pnone
  | plist (xs : List PyVal)
  | pdict (fields : List (String × PyVal))

/-- First-match lookup in an association list (Python dict lookup; keys of a
Python dict are unique, so first-match agrees with dict semantics). -/
def lookupKey : List (String × PyVal) → String → Option PyVal
  | [], _ => none
  | (k, v) :: rest, key => if k = key then some v else lookupKey rest key

/-- Holds exactly on `plist` values (`isinstance(x, list)`). -/
def PyVal.isPlist : PyVal → Bool
  | .plist _ => true
  | _ => false

/-- Holds exactly on `pdict` values (the value is a mapping, so attribute
access such as `.get` does not raise). -/
def PyVal.isPdict : PyVal → Bool
  | .pdict _ => true
  | _ => false

/-- Holds exactly when the computation returned normally, i.e. no Python
exception escaped the validator. -/
def isOk : Except String (List String) → Bool
  | .ok _ => true
  | .error _ => false

mutual

/-- Python `repr` of a value, used by `str` on containers.  Escaping of
special characters inside strings is elided (all identifiers handled by
this contract are plain ASCII without quotes). -/
def pyRepr : PyVal → String
  | .pstr s => "\x27" ++ s ++ "\x27"
  | .pint n => toString n
  | .pbool b => if b then "True" else "False"
  | .pnone => "None"
  | .plist xs => "[" ++ pyReprListStr xs ++ "]"
  | .pdict fs => "\x7b" ++ pyReprFieldsStr fs ++ "\x7d"

/-- Comma-separated `repr`s of list elements. -/
def pyReprListStr : List PyVal → String
  | [] => ""
  | [x] => pyRepr x
  | x :: y :: rest => pyRepr x ++ ", " ++ pyReprListStr (y :: rest)

/-- Comma-separated `repr`s of dict entries. -/
def pyReprFieldsStr : List (String × PyVal) → String
  | [] => ""
  | [(k, v)] => "\x27" ++ k ++ "\x27: " ++ pyRepr v
  | (k, v) :: kv :: rest =>
      "\x27" ++ k ++ "\x27: " ++ pyRepr v ++ ", " ++ pyReprFieldsStr (kv :: rest)

end

/-- Python `str()` of a value: identity on strings, `repr`-style rendering
otherwise (f-string interpolation uses this as well). -/
def pyStr : PyVal → String
  | .pstr s => s
  | .pint n => toString n
  | .pbool b => if b then "True" else "False"
  | .pnone => "None"
  | .plist xs => "[" ++ pyReprListStr xs ++ "]"
  | .pdict fs => "\x7b" ++ pyReprFieldsStr fs ++ "\x7d"

/-- Numeric value of a run of decimal digit characters (`int` applied to the
digits captured by the regex group). -/
def digitsVal (ds : List Char) : Nat :=
  ds.foldl (fun acc c => acc * 10 + (c.toNat - Char.toNat '0')) 0

/-- Left-to-right scan for the first occurrence of `marker` immediately
followed by at least one decimal digit; yields the numeric value of the
maximal digit run there.  This is `re.search(marker + "(\\d+)", value)`
followed by `int` on the captured group.  (Python's `\\d` also matches
non-ASCII Unicode digits; identifiers under this contract are ASCII, and
only ASCII digits are modelled.) -/
def findMarker (marker : Char) : List Char → Option Nat
  | [] => none
  | c :: rest =>
    if (c == marker) && (match rest with | d :: _ => d.isDigit | [] => false) then
      some (digitsVal (rest.takeWhile Char.isDigit))
    else
      findMarker marker rest

/-- The source function `_extract_index(value, marker)`: first `M<digits>` /
`T<digits>` match in the identifier, or `none` when absent. -/
def extract_index (value : String) (marker : Char) : Option Nat :=
  findMarker marker value.data

/-- Minimum number of phases (`PHASE_MIN`). -/
def PHASE_MIN : Nat := 7
/-- Minimum number of waves per phase (`WAVE_MIN`). -/
def WAVE_MIN : Nat := 5
/-- Exact number of milestones per phase (`MILESTONE_EXACT`). -/
def MILESTONE_EXACT : Nat := 4
/-- Exact number of tasks per milestone (`TASK_EXACT`). -/
def TASK_EXACT : Nat := 15

/-- The phase display identifier: `phase.get("phase_id", f"phase[{idx}]")`
rendered through `str` (f-string interpolation). -/
def pidOf (idx : Nat) (fs : List (String × PyVal)) : String :=
  pyStr ((lookupKey fs "phase_id").getD (.pstr ("phase[" ++ toString idx ++ "]")))

/-- The milestone display identifier:
`milestone.get("milestone_id", f"{pid}:milestone")` rendered through `str`. -/
def midOf (pidS : String) (fs : List (String × PyVal)) : String :=
  pyStr ((lookupKey fs "milestone_id").getD (.pstr (pidS ++ ":milestone")))

/-- The task display identifier: `str(task.get("task_id", ""))`. -/
def tidOf (fs : List (String × PyVal)) : String :=
  pyStr ((lookupKey fs "task_id").getD (.pstr ""))

/-- Message `"Missing required array: phases"`. -/
def msgMissingPhases : String := "Missing required array: phases"
/-- Message `f"phase_count={n} < {PHASE_MIN}"`. -/
def msgPhaseCount (n : Nat) : String :=
  "phase_count=" ++ toString n ++ " < " ++ toString PHASE_MIN
/-- Message `f"{pid}: missing waves[]"`. -/
def msgMissingWaves (pidS : String) : String := pidS ++ ": missing waves[]"
/-- Message `f"{pid}: wave_count={n} < {WAVE_MIN}"`. -/
def msgWaveCount (pidS : String) (n : Nat) : String :=
  pidS ++ ": wave_count=" ++ toString n ++ " < " ++ toString WAVE_MIN
/-- Message `f"{pid}: missing milestones[]"`. -/
def msgMissingMilestones (pidS : String) : String := pidS ++ ": missing milestones[]"
/-- Message `f"{pid}: milestone_count={n} != {MILESTONE_EXACT}"`. -/
def msgMilestoneCount (pidS : String) (n : Nat) : String :=
  pidS ++ ": milestone_count=" ++ toString n ++ " != " ++ toString MILESTONE_EXACT
/-- Message `f"{pid}: {mid}: missing milestone sequence marker"`. -/
def msgMissingMMarker (pidS midS : String) : String :=
  pidS ++ ": " ++ midS ++ ": missing milestone sequence marker"
/-- Message `f"{pid}: {mid}: milestone sequence is not strict"`. -/
def msgMNotStrict (pidS midS : String) : String :=
  pidS ++ ": " ++ midS ++ ": milestone sequence is not strict"
/-- Message `f"{pid}: {mid}: missing tasks[]"`. -/
def msgMissingTasks (pidS midS : String) : String :=
  pidS ++ ": " ++ midS ++ ": missing tasks[]"
/-- Message `f"{pid}: {mid}: task_count={n} != {TASK_EXACT}"`. -/
def msgTaskCount (pidS midS : String) (n : Nat) : String :=
  pidS ++ ": " ++ midS ++ ": task_count=" ++ toString n ++ " != " ++ toString TASK_EXACT
/-- Message `f"{pid}: {mid}: task missing sequence marker: {tid}"`. -/
def msgMissingTMarker (pidS midS tid : String) : String :=
  pidS ++ ": " ++ midS ++ ": task missing sequence marker: " ++ tid
/-- Message `f"{pid}: {mid}: task sequence is not strict"`. -/
def msgTNotStrict (pidS midS : String) : String :=
  pidS ++ ": " ++ midS ++ ": task sequence is not strict"
/-- Message `f"{pid}: {mid}: {tid}: missing done_criteria"`. -/
def msgMissingDone (pidS midS tid : String) : String :=
  pidS ++ ": " ++ midS ++ ": " ++ tid ++ ": missing done_criteria"
/-- Message `f"{pid}: {mid}: missing unit_gate"`. -/
def msgMissingUnitGate (pidS midS : String) : String :=
  pidS ++ ": " ++ midS ++ ": missing unit_gate"
/-- Message `f"{pid}: {mid}: missing integration_gate"`. -/
def msgMissingIntegrationGate (pidS midS : String) : String :=
  pidS ++ ": " ++ midS ++ ": missing integration_gate"
/-- Message `f"{pid}: missing phase_gates.phase_end_e2e"`. -/
def msgMissingPhaseEndE2e (pidS : String) : String :=
  pidS ++ ": missing phase_gates.phase_end_e2e"
/-- Message `f"{pid}: phase_gates must be an object"`. -/
def msgPhaseGatesNotObject (pidS : String) : String :=
  pidS ++ ": phase_gates must be an object"
/-- Message `f"{pid}: missing rolling_inter_phase_integration"`. -/
def msgMissingRollingInter (pidS : String) : String :=
  pidS ++ ": missing rolling_inter_phase_integration"
/-- Message `f"{pid}: missing rolling_cumulative_e2e"`. -/
def msgMissingRollingCumulative (pidS : String) : String :=
  pidS ++ ": missing rolling_cumulative_e2e"

/-- The shared marker / strict-increase step used for milestones and tasks
(source lines 69–74 and 91–96): a missing marker reports `missingMsg` and
keeps the running index; a non-increasing marker reports `notStrictMsg` and
keeps the running index; a strictly increasing marker reports nothing and
advances the running index. -/
def markerCheck (missingMsg notStrictMsg : String) (prev : Nat) (idx? : Option Nat) :
    List String × Nat :=
  match idx? with
  | none => ([missingMsg], prev)
  | some i => if i ≤ prev then ([notStrictMsg], prev) else ([], i)

/-- One iteration of the task loop (source lines 88–99) on one element of
`tasks`: returns the violations this task contributes together with the
updated running task index, or `.error` if the element is not a mapping
(`task.get` raises `AttributeError`). -/
def taskStep (pidS midS : String) (prev : Nat) (task : PyVal) :
    Except String (List String × Nat) :=
  match task with
  | .pdict fs =>
    let tid := tidOf fs
    let mk := markerCheck (msgMissingTMarker pidS midS tid) (msgTNotStrict pidS midS)
      prev (extract_index tid 'T')
    let doneErrs : List String :=
      if (lookupKey fs "done_criteria").isSome then [] else [msgMissingDone pidS midS tid]
    .ok (mk.1 ++ doneErrs, mk.2)
  | _ => .error "AttributeError"

/-- The task loop: violations of all tasks in order, threading the running
task index (which the caller starts at 0 for each milestone). -/
def runTasks (pidS midS : String) (prev : Nat) : List PyVal → Except String (List String)
  | [] => .ok []
  | t :: rest =>
    match taskStep pidS midS prev t with
    | .error e => .error e
    | .ok (errs, prev') =>
      match runTasks pidS midS prev' rest with
      | .error e => .error e
      | .ok errs2 => .ok (errs ++ errs2)

/-- The part of the milestone loop body after the sequence-marker check
(source lines 76–104): the `tasks` checks and, only when `tasks` is a
sequence, the task loop followed by the `unit_gate` / `integration_gate`
checks.  When `tasks` is missing or not a sequence the loop body
`continue`s after reporting it, so the task-level checks *and* the gate
checks are skipped. -/
def milestoneBodyErrors (pidS midS : String) (fs : List (String × PyVal)) :
    Except String (List String) :=
  match (lookupKey fs "tasks").getD .pnone with
  | .plist tasks =>
    let countErrs : List String :=
      if tasks.length = TASK_EXACT then [] else [msgTaskCount pidS midS tasks.length]
    match runTasks pidS midS 0 tasks with
    | .error e => .error e
    | .ok taskErrs =>
      let unitErrs : List String :=
        if (lookupKey fs "unit_gate").isSome then [] else [msgMissingUnitGate pidS midS]
      let integErrs : List String :=
        if (lookupKey fs "integration_gate").isSome then []
        else [msgMissingIntegrationGate pidS midS]
      .ok (countErrs ++ taskErrs ++ unitErrs ++ integErrs)
  | _ => .ok [msgMissingTasks pidS midS]

/-- One iteration of the milestone loop (source lines 65–104) on one element
of `milestones`: the sequence-marker check followed by the body checks.
Returns the violations this milestone contributes together with the updated
running milestone index, or `.error` if the element (or one of its tasks) is
not a mapping. -/
def milestoneStep (pidS : String) (prev : Nat) (milestone : PyVal) :
    Except String (List String × Nat) :=
  match milestone with
  | .pdict fs =>
    let midS := midOf pidS fs
    let mk := markerCheck (msgMissingMMarker pidS midS) (msgMNotStrict pidS midS)
      prev (extract_index midS 'M')
    match milestoneBodyErrors pidS midS fs with
    | .error e => .error e
    | .ok bodyErrs => .ok (mk.1 ++ bodyErrs, mk.2)
  | _ => .error "AttributeError"

/-- The milestone loop: violations of all milestones in order, threading the
running milestone index (which the caller starts at 0 for each phase). -/
def runMilestones (pidS : String) (prev : Nat) : List PyVal → Except String (List String)
  | [] => .ok []
  | m :: rest =>
    match milestoneStep pidS prev m with
    | .error e => .error e
    | .ok (errs, prev') =>
      match runMilestones pidS prev' rest with
      | .error e => .error e
      | .ok errs2 => .ok (errs ++ errs2)

/-- The waves check of the phase loop (source lines 47–51): missing or
non-sequence `waves` is one error, a sequence below the minimum count is
one error. -/
def waveErrors (pidS : String) (wavesVal : PyVal) : List String :=
  match wavesVal with
  | .plist waves =>
    if waves.length < WAVE_MIN then [msgWaveCount pidS waves.length] else []
  | _ => [msgMissingWaves pidS]

/-- The phase-gates checks of the phase loop (source lines 106–118) for the
phase at 1-based position `idx`, applied to `phase.get("phase_gates", {})`:
a non-mapping value is one error and skips the sub-checks; otherwise
`phase_end_e2e` must be present, and for every phase after the first both
rolling gates must be present. -/
def phaseGateErrors (pidS : String) (idx : Nat) (gatesVal : PyVal) : List String :=
  match gatesVal with
  | .pdict gates =>
    let endErrs : List String :=
      if (lookupKey gates "phase_end_e2e").isSome then []
      else [msgMissingPhaseEndE2e pidS]
    let rollErrs : List String :=
      if 1 < idx then
        (if (lookupKey gates "rolling_inter_phase_integration").isSome then []
         else [msgMissingRollingInter pidS]) ++
        (if (lookupKey gates "rolling_cumulative_e2e").isSome then []
         else [msgMissingRollingCumulative pidS])
      else []
    endErrs ++ rollErrs
  | _ => [msgPhaseGatesNotObject pidS]

/-- The body of the phase loop (source lines 45–118) for the phase at
1-based position `idx`: waves check, milestones check (a missing or
non-sequence `milestones` `continue`s, skipping the phase-gate checks),
milestone loop, then phase-gates checks. -/
def phaseErrors (idx : Nat) (phase : PyVal) : Except String (List String) :=
  match phase with
  | .pdict fs =>
    let pidS := pidOf idx fs
    let waveErrs := waveErrors pidS ((lookupKey fs "waves").getD .pnone)
    match (lookupKey fs "milestones").getD .pnone with
    | .plist milestones =>
      let countErrs : List String :=
        if milestones.length = MILESTONE_EXACT then []
        else [msgMilestoneCount pidS milestones.length]
      match runMilestones pidS 0 milestones with
      | .error e => .error e
      | .ok mErrs =>
        .ok (waveErrs ++ countErrs ++ mErrs ++
          phaseGateErrors pidS idx ((lookupKey fs "phase_gates").getD (.pdict [])))
    | _ => .ok (waveErrs ++ [msgMissingMilestones pidS])
  | _ => .error "AttributeError"

/-- The phase loop (`enumerate(phases, start=1)`): violations of all phases
in order, with 1-based positional indices starting at `idx`. -/
def runPhases (idx : Nat) : List PyVal → Except String (List String)
  | [] => .ok []
  | p :: rest =>
    match phaseErrors idx p with
    | .error e => .error e
    | .ok errs =>
      match runPhases (idx + 1) rest with
      | .error e => .error e
      | .ok errs2 => .ok (errs ++ errs2)

/-- The function `validate(plan)` (source lines 33–120).  `plan` is the dictionary passed
in (the function signature requires `dict[str, Any]`).  `.ok errs` is a
normal return of the accumulated violation list; `.error` models a Python
exception escaping `validate`. -/
def validate (plan : List (String × PyVal)) : Except String (List String) :=
  match (lookupKey plan "phases").getD .pnone with
  | .plist phases =>
    let countErrs : List String :=
      if phases.length < PHASE_MIN then [msgPhaseCount phases.length] else []
    match runPhases 1 phases with
    | .error e => .error e
    | .ok perrs => .ok (countErrs ++ perrs)
  | _ => .ok [msgMissingPhases]

/-!
## Declarative validity predicates

`codeContractB` states, as a Boolean shape predicate with no message
formatting, no accumulation and no exception plumbing, when a document
passes every check the code performs.  It is proved equivalent to
`validate · = .ok []` below.
-/

/-- The task list is fully valid: every element is a mapping whose display
identifier carries a `T<digits>` marker strictly above the running index,
and carries `done_criteria`. -/
def tasksValidB (prev : Nat) : List PyVal → Bool
  | [] => true
  | t :: rest =>
    match t with
    | .pdict fs =>
      match extract_index (tidOf fs) 'T' with
      | some i =>
        decide (prev < i) && (lookupKey fs "done_criteria").isSome && tasksValidB i rest
      | none => false
    | _ => false

/-- The body of one milestone is fully valid: `tasks` is a sequence of
exactly `TASK_EXACT` fully valid tasks, and both gates are present. -/
def milestoneBodyValidB (fs : List (String × PyVal)) : Bool :=
  (match (lookupKey fs "tasks").getD .pnone with
   | .plist ts => decide (ts.length = TASK_EXACT) && tasksValidB 0 ts
   | _ => false) &&
  (lookupKey fs "unit_gate").isSome && (lookupKey fs "integration_gate").isSome

/-- The milestone list is fully valid: every element is a mapping whose
display identifier carries an `M<digits>` marker strictly above the running
index, with a fully valid body. -/
def milestonesValidB (pidS : String) (prev : Nat) : List PyVal → Bool
  | [] => true
  | m :: rest =>
    match m with
    | .pdict fs =>
      match extract_index (midOf pidS fs) 'M' with
      | some i => decide (prev < i) && milestoneBodyValidB fs && milestonesValidB pidS i rest
      | none => false
    | _ => false

/-- The `waves` field is valid: a sequence of at least `WAVE_MIN` elements
(their shape is never inspected). -/
def wavesValidB : PyVal → Bool
  | .plist waves => decide (WAVE_MIN ≤ waves.length)
  | _ => false

/-- The (defaulted) `phase_gates` value is valid for the phase at 1-based
position `idx`: a mapping carrying `phase_end_e2e` plus, for every phase
after the first, both rolling gates. -/
def gatesValidB (idx : Nat) : PyVal → Bool
  | .pdict gates =>
    (lookupKey gates "phase_end_e2e").isSome &&
    (decide (idx ≤ 1) ||
     ((lookupKey gates "rolling_inter_phase_integration").isSome &&
      (lookupKey gates "rolling_cumulative_e2e").isSome))
  | _ => false

/-- One phase at 1-based position `idx` is fully valid: valid `waves`,
`milestones` a sequence of exactly `MILESTONE_EXACT` fully valid
milestones, and valid (defaulted) `phase_gates`. -/
def phaseValidB (idx : Nat) (phase : PyVal) : Bool :=
  match phase with
  | .pdict fs =>
    wavesValidB ((lookupKey fs "waves").getD .pnone) &&
    (match (lookupKey fs "milestones").getD .pnone with
     | .plist ms => decide (ms.length = MILESTONE_EXACT) && milestonesValidB (pidOf idx fs) 0 ms
     | _ => false) &&
    gatesValidB idx ((lookupKey fs "phase_gates").getD (.pdict []))
  | _ => false

/-- All phases are fully valid at their 1-based positions starting at `idx`. -/
def phasesValidB (idx : Nat) : List PyVal → Bool
  | [] => true
  | p :: rest => phaseValidB idx p && phasesValidB (idx + 1) rest

/-- The document passes every check the code performs: `phases` is a
sequence of at least `PHASE_MIN` phases, all fully valid. -/
def codeContractB (plan : List (String × PyVal)) : Bool :=
  match (lookupKey plan "phases").getD .pnone with
  | .plist phases => decide (PHASE_MIN ≤ phases.length) && phasesValidB 1 phases
  | _ => false

/-!
## The contract as the specification words it

`specContractB` follows the specification text rather than the code: the
data model (spec §3) gives every milestone a `milestone_id` *string*
containing an `M<digits>` marker and every task a `task_id` *string*
containing a `T<digits>` marker, and the traversal rules (spec §4.1.3c)
search "its `milestone_id` string" for the marker.  The only difference
from `codeContractB` is therefore at the two identifier fields: here they
must be present strings carrying their own marker, whereas the code
searches a substituted display identifier (`str()` of whatever is there,
defaulting to `"{pid}:milestone"` / `""`).
-/

/-- Task validity as the specification words it: `task_id` is a present
string carrying the `T<digits>` marker. -/
def specTasksValidB (prev : Nat) : List PyVal → Bool
  | [] => true
  | t :: rest =>
    match t with
    | .pdict fs =>
      match lookupKey fs "task_id" with
      | some (.pstr s) =>
        match extract_index s 'T' with
        | some i =>
          decide (prev < i) && (lookupKey fs "done_criteria").isSome && specTasksValidB i rest
        | none => false
      | _ => false
    | _ => false

/-- Milestone-body validity as the specification words it. -/
def specMilestoneBodyValidB (fs : List (String × PyVal)) : Bool :=
  (match (lookupKey fs "tasks").getD .pnone with
   | .plist ts => decide (ts.length = TASK_EXACT) && specTasksValidB 0 ts
   | _ => false) &&
  (lookupKey fs "unit_gate").isSome && (lookupKey fs "integration_gate").isSome

/-- Milestone-list validity as the specification words it: `milestone_id`
is a present string carrying the `M<digits>` marker. -/
def specMilestonesValidB (prev : Nat) : List PyVal → Bool
  | [] => true
  | m :: rest =>
    match m with
    | .pdict fs =>
      match lookupKey fs "milestone_id" with
      | some (.pstr s) =>
        match extract_index s 'M' with
        | some i => decide (prev < i) && specMilestoneBodyValidB fs && specMilestonesValidB i rest
        | none => false
      | _ => false
    | _ => false

/-- Phase validity as the specification words it. -/
def specPhaseValidB (idx : Nat) (phase : PyVal) : Bool :=
  match phase with
  | .pdict fs =>
    wavesValidB ((lookupKey fs "waves").getD .pnone) &&
    (match (lookupKey fs "milestones").getD .pnone with
     | .plist ms => decide (ms.length = MILESTONE_EXACT) && specMilestonesValidB 0 ms
     | _ => false) &&
    gatesValidB idx ((lookupKey fs "phase_gates").getD (.pdict []))
  | _ => false

/-- All phases valid, as the specification words it. -/
def specPhasesValidB (idx : Nat) : List PyVal → Bool
  | [] => true
  | p :: rest => specPhaseValidB idx p && specPhasesValidB (idx + 1) rest

/-- The proposition "the document fully satisfies the contract", following the
specification's data model and rule text. -/
def specContractB (plan : List (String × PyVal)) : Bool :=
  match (lookupKey plan "phases").getD .pnone with
  | .plist phases => decide (PHASE_MIN ≤ phases.length) && specPhasesValidB 1 phases
  | _ => false

/-!
## The fully-valid document family of spec §8 / claim C1

The family enumerated by the claim: exactly `PHASE_MIN` phases, each with
exactly `WAVE_MIN` waves, exactly `MILESTONE_EXACT` milestones whose
`milestone_id` strings carry strictly increasing `M` markers, each with
exactly `TASK_EXACT` tasks whose `task_id` strings carry strictly
increasing `T` markers and `done_criteria`, both milestone gates, and phase
gates with `phase_end_e2e` plus both rolling gates on every phase after the
first.  (The spec's instance uses markers `M1<M2<M3<M4` and `T1..T15`, so
"strictly increasing" here starts above the initial running index 0.)
-/

/-- Family shape of a task list. -/
def familyTasksB (prev : Nat) : List PyVal → Bool
  | [] => true
  | t :: rest =>
    match t with
    | .pdict fs =>
      match lookupKey fs "task_id" with
      | some (.pstr s) =>
        match extract_index s 'T' with
        | some i => decide (prev < i) && (lookupKey fs "done_criteria").isSome && familyTasksB i rest
        | none => false
      | _ => false
    | _ => false

/-- Family shape of a milestone list. -/
def familyMilestonesB (prev : Nat) : List PyVal → Bool
  | [] => true
  | m :: rest =>
    match m with
    | .pdict fs =>
      match lookupKey fs "milestone_id" with
      | some (.pstr s) =>
        match extract_index s 'M' with
        | some i =>
          decide (prev < i) &&
          (match (lookupKey fs "tasks").getD .pnone with
           | .plist ts => decide (ts.length = TASK_EXACT) && familyTasksB 0 ts
           | _ => false) &&
          (lookupKey fs "unit_gate").isSome && (lookupKey fs "integration_gate").isSome &&
          familyMilestonesB i rest
        | none => false
      | _ => false
    | _ => false

/-- Family shape of one phase at 1-based position `idx`: exactly `WAVE_MIN`
waves, exactly `MILESTONE_EXACT` milestones of family shape, and valid
phase gates. -/
def familyPhaseB (idx : Nat) (phase : PyVal) : Bool :=
  match phase with
  | .pdict fs =>
    (match (lookupKey fs "waves").getD .pnone with
     | .plist waves => decide (waves.length = WAVE_MIN)
     | _ => false) &&
    (match (lookupKey fs "milestones").getD .pnone with
     | .plist ms => decide (ms.length = MILESTONE_EXACT) && familyMilestonesB 0 ms
     | _ => false) &&
    gatesValidB idx ((lookupKey fs "phase_gates").getD (.pdict []))
  | _ => false

/-- Family shape of the phase list from position `idx` on. -/
def familyPhasesB (idx : Nat) : List PyVal → Bool
  | [] => true
  | p :: rest => familyPhaseB idx p && familyPhasesB (idx + 1) rest

/-- The fully-valid family of claim C1: exactly `PHASE_MIN` phases of
family shape. -/
def familyValidB (plan : List (String × PyVal)) : Bool :=
  match (lookupKey plan "phases").getD .pnone with
  | .plist phases => decide (phases.length = PHASE_MIN) && familyPhasesB 1 phases
  | _ => false

/-- The otherwise-fully-valid 6-phase family of claim C8: exactly 6 phases
of family shape. -/
def family6ValidB (plan : List (String × PyVal)) : Bool :=
  match (lookupKey plan "phases").getD .pnone with
  | .plist phases => decide (phases.length = 6) && familyPhasesB 1 phases
  | _ => false

/-!
## Concrete documents
-/

/-- A fully valid task `{"task_id": "T<i>", "done_criteria": "ok"}`. -/
def mkTask (i : Nat) : PyVal :=
  .pdict [("task_id", .pstr ("T" ++ toString i)), ("done_criteria", .pstr "ok")]

/-- The 15 fully valid tasks `T1 .. T15`. -/
def mkTasks : List PyVal := (List.range TASK_EXACT).map (fun k => mkTask (k + 1))

/-- A fully valid milestone `M<i>` with its 15 tasks and both gates. -/
def mkMilestone (i : Nat) : PyVal :=
  .pdict [("milestone_id", .pstr ("M" ++ toString i)), ("tasks", .plist mkTasks),
          ("unit_gate", .pstr "g"), ("integration_gate", .pstr "g")]

/-- The 4 fully valid milestones `M1 .. M4`. -/
def mkMilestones : List PyVal := (List.range MILESTONE_EXACT).map (fun k => mkMilestone (k + 1))

/-- The 5 waves (their shape is never inspected). -/
def mkWaves : List PyVal := (List.range WAVE_MIN).map (fun k => .pstr ("W" ++ toString (k + 1)))

/-- Fully populated phase gates (all three keys). -/
def mkGatesFull : PyVal :=
  .pdict [("phase_end_e2e", .pstr "g"), ("rolling_inter_phase_integration", .pstr "g"),
          ("rolling_cumulative_e2e", .pstr "g")]

/-- A fully valid phase `P<i>` (with all three phase gates). -/
def mkPhase (i : Nat) : PyVal :=
  .pdict [("phase_id", .pstr ("P" ++ toString i)), ("waves", .plist mkWaves),
          ("milestones", .plist mkMilestones), ("phase_gates", mkGatesFull)]

/-- The fully valid 7-phase document of spec §8. -/
def famDoc7 : List (String × PyVal) :=
  [("phases", .plist ((List.range PHASE_MIN).map (fun k => mkPhase (k + 1))))]

/-- The otherwise fully valid 6-phase document of claim C8. -/
def famDoc6 : List (String × PyVal) :=
  [("phases", .plist ((List.range 6).map (fun k => mkPhase (k + 1))))]

/-- A fully valid milestone *without* `milestone_id`: the validator
substitutes the display identifier `f"{pid}:milestone"` and searches *that*
for the `M` marker. -/
def noIdMilestone : PyVal :=
  .pdict [("tasks", .plist mkTasks), ("unit_gate", .pstr "g"), ("integration_gate", .pstr "g")]

/-- Phase whose `phase_id` itself contains `M1` and whose first milestone
has no `milestone_id`: that milestone's substituted display identifier
`"M1-quirk:milestone"` supplies marker index 1. -/
def quirkPhase : PyVal :=
  .pdict [("phase_id", .pstr "M1-quirk"), ("waves", .plist mkWaves),
          ("milestones", .plist [noIdMilestone, mkMilestone 2, mkMilestone 3, mkMilestone 4]),
          ("phase_gates", mkGatesFull)]

/-- 7-phase document that `validate` accepts although its first phase's
first milestone has no `milestone_id` at all. -/
def quirkDoc : List (String × PyVal) :=
  [("phases", .plist (quirkPhase :: (List.range 6).map (fun k => mkPhase (k + 2))))]

/-- Phase with `phase_id = "M2-alpha"` whose first milestone has no
`milestone_id`: the substituted display identifier `"M2-alpha:milestone"`
supplies marker index 2, so the following milestones carry `M3..M5`. -/
def c10Phase : PyVal :=
  .pdict [("phase_id", .pstr "M2-alpha"), ("waves", .plist mkWaves),
          ("milestones", .plist [noIdMilestone, mkMilestone 3, mkMilestone 4, mkMilestone 5]),
          ("phase_gates", mkGatesFull)]

/-- 7-phase document exercising the defaulted-display-identifier marker
extraction of claim C10. -/
def c10Doc : List (String × PyVal) :=
  [("phases", .plist (c10Phase :: (List.range 6).map (fun k => mkPhase (k + 2))))]

/-- Document whose only milestone has marker `M1` but no `tasks`, no
`unit_gate` and no `integration_gate`. -/
def c3Doc : List (String × PyVal) :=
  [("phases", .plist [.pdict [("milestones", .plist [.pdict [("milestone_id", .pstr "M1")]])]])]

/-- The milestone list `M1, M1, M3` of claim C5 (each milestone otherwise
fully valid). -/
def c5Milestones : List PyVal := [mkMilestone 1, mkMilestone 1, mkMilestone 3]

/-- A task whose identifier `"task-x"` contains no `T<digits>` substring. -/
def c6TaskX : PyVal := .pdict [("task_id", .pstr "task-x"), ("done_criteria", .pstr "ok")]

/-- Milestone `M1` whose task list is `["task-x", "T1"]` (both carrying
`done_criteria`), with both gates present. -/
def c6Milestone : PyVal :=
  .pdict [("milestone_id", .pstr "M1"), ("tasks", .plist [c6TaskX, mkTask 1]),
          ("unit_gate", .pstr "g"), ("integration_gate", .pstr "g")]

/-- Two totally empty phases: in both, `milestones` is missing, so the loop
body `continue`s past the phase-gates checks. -/
def c7BadDoc : List (String × PyVal) :=
  [("phases", .plist [.pdict [], .pdict []])]

/-- Phase gates carrying `phase_end_e2e` and `rolling_cumulative_e2e` but
*not* `rolling_inter_phase_integration`. -/
def mkGatesNoRollingInter : PyVal :=
  .pdict [("phase_end_e2e", .pstr "g"), ("rolling_cumulative_e2e", .pstr "g")]

/-- A fully valid phase except that its gates omit
`rolling_inter_phase_integration`. -/
def mkPhaseNoRollingInter (i : Nat) : PyVal :=
  .pdict [("phase_id", .pstr ("P" ++ toString i)), ("waves", .plist mkWaves),
          ("milestones", .plist mkMilestones), ("phase_gates", mkGatesNoRollingInter)]

/-- 7-phase document, fully valid except that phases 1 and 2 both omit
`rolling_inter_phase_integration`: only phase 2 is reported. -/
def c7ExDoc : List (String × PyVal) :=
  [("phases", .plist (mkPhaseNoRollingInter 1 :: mkPhaseNoRollingInter 2 ::
    (List.range 5).map (fun k => mkPhase (k + 3))))]

/-- Six totally empty phases: the phase-count violation is followed by
per-phase violations, showing the count violation blocks nothing. -/
def c8NonBlockDoc : List (String × PyVal) :=
  [("phases", .plist (List.replicate 6 (.pdict [])))]

/-!
## Well-shapedness: the inputs on which `validate` raises nothing

`validate` calls `.get` on every element of the `phases`, `milestones` and
`tasks` sequences it traverses; on a non-mapping element this raises
`AttributeError`.  Every *named field* may be absent or of the wrong type
without raising.
-/

/-- Every task element of this milestone that the validator would traverse
is a mapping. -/
def wellShapedMilestoneB : PyVal → Bool
  | .pdict fs =>
    match (lookupKey fs "tasks").getD .pnone with
    | .plist ts => ts.all PyVal.isPdict
    | _ => true
  | _ => false

/-- Every milestone element of this phase that the validator would
traverse is a mapping, and so is every task element below it. -/
def wellShapedPhaseB : PyVal → Bool
  | .pdict fs =>
    match (lookupKey fs "milestones").getD .pnone with
    | .plist ms => ms.all wellShapedMilestoneB
    | _ => true
  | _ => false

/-- Every phase / milestone / task element the validator would traverse is
a mapping. -/
def wellShapedB (plan : List (String × PyVal)) : Bool :=
  match (lookupKey plan "phases").getD .pnone with
  | .plist ps => ps.all wellShapedPhaseB
  | _ => true

/-- The full violation list for `c3Doc`: the milestone's missing `tasks`
is reported, its missing gates are not. -/
def c3Expected : List String :=
  ["phase_count=1 < 7", "phase[1]: missing waves[]",
   "phase[1]: milestone_count=1 != 4", "phase[1]: M1: missing tasks[]",
   "phase[1]: missing phase_gates.phase_end_e2e"]

/-- The full violation list for `c7BadDoc`: no rolling-gate violation
appears for phase 2 because its missing `milestones` skipped the gate
checks. -/
def c7BadExpected : List String :=
  ["phase_count=2 < 7", "phase[1]: missing waves[]", "phase[1]: missing milestones[]",
   "phase[2]: missing waves[]", "phase[2]: missing milestones[]"]

/-- Field list of a bare phase whose `milestones` is an empty sequence
(so the gate checks are reached) and whose `phase_gates` is absent. -/
def c7PhaseFields : List (String × PyVal) := [("milestones", PyVal.plist [])]

/-- The violation list of that bare phase at position 2: both rolling
gates are reported absent. -/
def c7WitnessErrs : List String :=
  [msgMissingWaves "phase[2]", msgMilestoneCount "phase[2]" 0,
   msgMissingPhaseEndE2e "phase[2]", msgMissingRollingInter "phase[2]",
   msgMissingRollingCumulative "phase[2]"]

/-- The per-phase violations of the six empty phases of `c8NonBlockDoc`,
all produced after the phase-count violation. -/
def c8NonBlockTail : List String :=
  ["phase[1]: missing waves[]", "phase[1]: missing milestones[]",
   "phase[2]: missing waves[]", "phase[2]: missing milestones[]",
   "phase[3]: missing waves[]", "phase[3]: missing milestones[]",
   "phase[4]: missing waves[]", "phase[4]: missing milestones[]",
   "phase[5]: missing waves[]", "phase[5]: missing milestones[]",
   "phase[6]: missing waves[]", "phase[6]: missing milestones[]"]

/-!
## The error list is empty exactly on fully valid input

The chain of equivalences between "the traversal contributes no violation
and raises nothing" and the declarative validity predicates, one nesting
level at a time.
-/

/-- The task loop contributes no violation (and raises nothing) exactly on
a fully valid task list. -/
theorem runTasks_ok_nil_iff (pidS midS : String) (ts : List PyVal) (prev : Nat) :
    runTasks pidS midS prev ts = .ok [] ↔ tasksValidB prev ts = true := by
  induction ts generalizing prev with
  | nil => simp [runTasks, tasksValidB]
  | cons t rest ih =>
    cases t with
    | pdict fs =>
      cases hx : extract_index (tidOf fs) 'T' with
      | none =>
        cases hr : runTasks pidS midS prev rest with
        | error e => simp [runTasks, taskStep, tasksValidB, markerCheck, hx, hr]
        | ok errs2 => simp [runTasks, taskStep, tasksValidB, markerCheck, hx, hr]
      | some i =>
        by_cases hle : i ≤ prev
        · have hnlt : ¬ prev < i := Nat.not_lt.mpr hle
          cases hr : runTasks pidS midS prev rest with
          | error e => simp [runTasks, taskStep, tasksValidB, markerCheck, hx, hle, hnlt, hr]
          | ok errs2 => simp [runTasks, taskStep, tasksValidB, markerCheck, hx, hle, hnlt, hr]
        · have hlt : prev < i := Nat.lt_of_not_le hle
          cases hd : (lookupKey fs "done_criteria").isSome with
          | false =>
            cases hr : runTasks pidS midS i rest with
            | error e => simp [runTasks, taskStep, tasksValidB, markerCheck, hx, hle, hlt, hd, hr]
            | ok errs2 => simp [runTasks, taskStep, tasksValidB, markerCheck, hx, hle, hlt, hd, hr]
          | true =>
            have ih2 := ih i
            cases hr : runTasks pidS midS i rest with
            | error e =>
              rw [hr] at ih2
              simp only [reduceCtorEq, false_iff] at ih2
              simp [runTasks, taskStep, tasksValidB, markerCheck, hx, hle, hlt, hd, hr, ih2]
            | ok errs2 =>
              rw [hr] at ih2
              simp only [Except.ok.injEq] at ih2
              simp [runTasks, taskStep, tasksValidB, markerCheck, hx, hle, hlt, hd, hr, ih2]
    | pstr s => simp [runTasks, taskStep, tasksValidB]
    | pint n => simp [runTasks, taskStep, tasksValidB]
    | pbool b => simp [runTasks, taskStep, tasksValidB]
    | pnone => simp [runTasks, taskStep, tasksValidB]
    | plist xs => simp [runTasks, taskStep, tasksValidB]

/-- The milestone body contributes no violation (and raises nothing)
exactly on a fully valid milestone body. -/
theorem milestoneBodyErrors_ok_nil_iff (pidS midS : String) (fs : List (String × PyVal)) :
    milestoneBodyErrors pidS midS fs = .ok [] ↔ milestoneBodyValidB fs = true := by
  cases ht : (lookupKey fs "tasks").getD .pnone with
  | plist ts =>
    have hiff := runTasks_ok_nil_iff pidS midS ts 0
    cases hr : runTasks pidS midS 0 ts with
    | error e =>
      rw [hr] at hiff
      simp only [reduceCtorEq, false_iff] at hiff
      simp [milestoneBodyErrors, milestoneBodyValidB, ht, hr, hiff]
    | ok taskErrs =>
      rw [hr] at hiff
      simp only [Except.ok.injEq] at hiff
      by_cases hc : ts.length = TASK_EXACT <;>
        by_cases hu : (lookupKey fs "unit_gate").isSome = true <;>
        by_cases hg : (lookupKey fs "integration_gate").isSome = true <;>
        simp [milestoneBodyErrors, milestoneBodyValidB, ht, hr, hiff, hc, hu, hg]
  | pstr s => simp [milestoneBodyErrors, milestoneBodyValidB, ht]
  | pint n => simp [milestoneBodyErrors, milestoneBodyValidB, ht]
  | pbool b => simp [milestoneBodyErrors, milestoneBodyValidB, ht]
  | pnone => simp [milestoneBodyErrors, milestoneBodyValidB, ht]
  | pdict gs => simp [milestoneBodyErrors, milestoneBodyValidB, ht]

/-- One milestone-loop iteration contributes no violation exactly when the
marker is present and strictly increasing (the updated running index is then
exactly the marker value) and the body is fully valid. -/
theorem milestoneStep_ok_nil_iff (pidS : String) (prev : Nat) (fs : List (String × PyVal))
    (prev' : Nat) :
    milestoneStep pidS prev (.pdict fs) = .ok ([], prev') ↔
      (extract_index (midOf pidS fs) 'M' = some prev' ∧ prev < prev' ∧
       milestoneBodyValidB fs = true) := by
  have hbody := milestoneBodyErrors_ok_nil_iff pidS (midOf pidS fs) fs
  cases hb : milestoneBodyErrors pidS (midOf pidS fs) fs with
  | error e =>
    rw [hb] at hbody
    simp only [reduceCtorEq, false_iff] at hbody
    cases hx : extract_index (midOf pidS fs) 'M' with
    | none => simp [milestoneStep, markerCheck, hx, hb, hbody]
    | some i =>
      by_cases hle : i ≤ prev <;> simp [milestoneStep, markerCheck, hx, hb, hle, hbody]
  | ok bodyErrs =>
    rw [hb] at hbody
    simp only [Except.ok.injEq] at hbody
    cases hx : extract_index (midOf pidS fs) 'M' with
    | none => simp [milestoneStep, markerCheck, hx, hb, hbody]
    | some i =>
      by_cases hle : i ≤ prev
      · have hnlt : ¬ prev < i := Nat.not_lt.mpr hle
        simp only [milestoneStep, markerCheck, hx, hb, if_pos hle, List.cons_append,
          Except.ok.injEq, Prod.mk.injEq, reduceCtorEq, false_and, false_iff, not_and,
          Option.some.injEq]
        rintro rfl h
        exact absurd h hnlt
      · have hlt : prev < i := Nat.lt_of_not_le hle
        simp only [milestoneStep, markerCheck, hx, hb, if_neg hle, List.nil_append,
          Except.ok.injEq, Prod.mk.injEq, Option.some.injEq]
        constructor
        · rintro ⟨hbe, rfl⟩
          exact ⟨rfl, hlt, hbody.mp hbe⟩
        · rintro ⟨rfl, -, hv⟩
          exact ⟨hbody.mpr hv, rfl⟩

/-- The milestone loop contributes no violation (and raises nothing)
exactly on a fully valid milestone list. -/
theorem runMilestones_ok_nil_iff (pidS : String) (ms : List PyVal) (prev : Nat) :
    runMilestones pidS prev ms = .ok [] ↔ milestonesValidB pidS prev ms = true := by
  induction ms generalizing prev with
  | nil => simp [runMilestones, milestonesValidB]
  | cons m rest ih =>
    cases m with
    | pdict fs =>
      have hbody := milestoneBodyErrors_ok_nil_iff pidS (midOf pidS fs) fs
      cases hx : extract_index (midOf pidS fs) 'M' with
      | none =>
        cases hb : milestoneBodyErrors pidS (midOf pidS fs) fs with
        | error e => simp [runMilestones, milestoneStep, milestonesValidB, markerCheck, hx, hb]
        | ok bodyErrs =>
          cases hr : runMilestones pidS prev rest with
          | error e =>
            simp [runMilestones, milestoneStep, milestonesValidB, markerCheck, hx, hb, hr]
          | ok errs2 =>
            simp [runMilestones, milestoneStep, milestonesValidB, markerCheck, hx, hb, hr]
      | some i =>
        by_cases hle : i ≤ prev
        · have hnlt : ¬ prev < i := Nat.not_lt.mpr hle
          cases hb : milestoneBodyErrors pidS (midOf pidS fs) fs with
          | error e =>
            simp [runMilestones, milestoneStep, milestonesValidB, markerCheck, hx, hb, hle, hnlt]
          | ok bodyErrs =>
            cases hr : runMilestones pidS prev rest with
            | error e =>
              simp [runMilestones, milestoneStep, milestonesValidB, markerCheck, hx, hb, hle,
                hnlt, hr]
            | ok errs2 =>
              simp [runMilestones, milestoneStep, milestonesValidB, markerCheck, hx, hb, hle,
                hnlt, hr]
        · have hlt : prev < i := Nat.lt_of_not_le hle
          cases hb : milestoneBodyErrors pidS (midOf pidS fs) fs with
          | error e =>
            rw [hb] at hbody
            simp only [reduceCtorEq, false_iff] at hbody
            simp [runMilestones, milestoneStep, milestonesValidB, markerCheck, hx, hb, hle,
              hlt, hbody]
          | ok bodyErrs =>
            rw [hb] at hbody
            simp only [Except.ok.injEq] at hbody
            have ih2 := ih i
            cases hr : runMilestones pidS i rest with
            | error e =>
              rw [hr] at ih2
              simp only [reduceCtorEq, false_iff] at ih2
              simp [runMilestones, milestoneStep, milestonesValidB, markerCheck, hx, hb, hle,
                hlt, hr, hbody, ih2]
            | ok errs2 =>
              rw [hr] at ih2
              simp only [Except.ok.injEq] at ih2
              simp [runMilestones, milestoneStep, milestonesValidB, markerCheck, hx, hb, hle,
                hlt, hr, hbody, ih2]
    | pstr s => simp [runMilestones, milestoneStep, milestonesValidB]
    | pint n => simp [runMilestones, milestoneStep, milestonesValidB]
    | pbool b => simp [runMilestones, milestoneStep, milestonesValidB]
    | pnone => simp [runMilestones, milestoneStep, milestonesValidB]
    | plist xs => simp [runMilestones, milestoneStep, milestonesValidB]

/-- The waves check contributes no violation exactly on a valid `waves`
value. -/
theorem waveErrors_nil_iff (pidS : String) (v : PyVal) :
    waveErrors pidS v = [] ↔ wavesValidB v = true := by
  cases v with
  | plist waves =>
    by_cases h : waves.length < WAVE_MIN
    · simp [waveErrors, wavesValidB, h, Nat.not_le.mpr h]
    · simp [waveErrors, wavesValidB, h, Nat.not_lt.mp h]
  | pstr s => simp [waveErrors, wavesValidB]
  | pint n => simp [waveErrors, wavesValidB]
  | pbool b => simp [waveErrors, wavesValidB]
  | pnone => simp [waveErrors, wavesValidB]
  | pdict fs => simp [waveErrors, wavesValidB]

/-- The phase-gates checks contribute no violation exactly on a valid
(defaulted) `phase_gates` value. -/
theorem phaseGateErrors_nil_iff (pidS : String) (idx : Nat) (v : PyVal) :
    phaseGateErrors pidS idx v = [] ↔ gatesValidB idx v = true := by
  cases v with
  | pdict gates =>
    by_cases he : (lookupKey gates "phase_end_e2e").isSome = true
    · by_cases hi : 1 < idx
      · by_cases hr : (lookupKey gates "rolling_inter_phase_integration").isSome = true <;>
          by_cases hc : (lookupKey gates "rolling_cumulative_e2e").isSome = true <;>
          simp [phaseGateErrors, gatesValidB, he, hi, hr, hc, Nat.not_le.mpr hi]
      · simp [phaseGateErrors, gatesValidB, he, hi, Nat.not_lt.mp hi]
    · by_cases hi : 1 < idx
      · by_cases hr : (lookupKey gates "rolling_inter_phase_integration").isSome = true <;>
          by_cases hc : (lookupKey gates "rolling_cumulative_e2e").isSome = true <;>
          simp [phaseGateErrors, gatesValidB, he, hi, hr, hc]
      · simp [phaseGateErrors, gatesValidB, he, hi]
  | pstr s => simp [phaseGateErrors, gatesValidB]
  | pint n => simp [phaseGateErrors, gatesValidB]
  | pbool b => simp [phaseGateErrors, gatesValidB]
  | pnone => simp [phaseGateErrors, gatesValidB]
  | plist xs => simp [phaseGateErrors, gatesValidB]

/-- The phase-loop body contributes no violation (and raises nothing)
exactly on a fully valid phase. -/
theorem phaseErrors_ok_nil_iff (idx : Nat) (phase : PyVal) :
    phaseErrors idx phase = .ok [] ↔ phaseValidB idx phase = true := by
  cases phase with
  | pdict fs =>
    cases hm : (lookupKey fs "milestones").getD .pnone with
    | plist ms =>
      have hmil := runMilestones_ok_nil_iff (pidOf idx fs) ms 0
      cases hr : runMilestones (pidOf idx fs) 0 ms with
      | error e =>
        rw [hr] at hmil
        simp only [reduceCtorEq, false_iff] at hmil
        simp [phaseErrors, phaseValidB, hm, hr, hmil]
      | ok mErrs =>
        rw [hr] at hmil
        simp only [Except.ok.injEq] at hmil
        by_cases hc : ms.length = MILESTONE_EXACT <;>
          simp [phaseErrors, phaseValidB, hm, hr, hc, hmil, waveErrors_nil_iff,
            phaseGateErrors_nil_iff, and_assoc]
    | pstr s => simp [phaseErrors, phaseValidB, hm]
    | pint n => simp [phaseErrors, phaseValidB, hm]
    | pbool b => simp [phaseErrors, phaseValidB, hm]
    | pnone => simp [phaseErrors, phaseValidB, hm]
    | pdict gs => simp [phaseErrors, phaseValidB, hm]
  | pstr s => simp [phaseErrors, phaseValidB]
  | pint n => simp [phaseErrors, phaseValidB]
  | pbool b => simp [phaseErrors, phaseValidB]
  | pnone => simp [phaseErrors, phaseValidB]
  | plist xs => simp [phaseErrors, phaseValidB]

/-- The phase loop contributes no violation (and raises nothing) exactly on
a list of fully valid phases. -/
theorem runPhases_ok_nil_iff (ps : List PyVal) (idx : Nat) :
    runPhases idx ps = .ok [] ↔ phasesValidB idx ps = true := by
  induction ps generalizing idx with
  | nil => simp [runPhases, phasesValidB]
  | cons p rest ih =>
    have hphase := phaseErrors_ok_nil_iff idx p
    cases hp : phaseErrors idx p with
    | error e =>
      rw [hp] at hphase
      simp only [reduceCtorEq, false_iff] at hphase
      simp [runPhases, phasesValidB, hp, hphase]
    | ok errs =>
      rw [hp] at hphase
      simp only [Except.ok.injEq] at hphase
      have ih2 := ih (idx + 1)
      cases hr : runPhases (idx + 1) rest with
      | error e =>
        rw [hr] at ih2
        simp only [reduceCtorEq, false_iff] at ih2
        simp [runPhases, phasesValidB, hp, hr, hphase, ih2]
      | ok errs2 =>
        rw [hr] at ih2
        simp only [Except.ok.injEq] at ih2
        simp [runPhases, phasesValidB, hp, hr, hphase, ih2]

/-- The function `validate` returns the empty violation list exactly on a document that
passes every check the code performs. -/
theorem validate_ok_nil_iff (plan : List (String × PyVal)) :
    validate plan = .ok [] ↔ codeContractB plan = true := by
  cases hp : (lookupKey plan "phases").getD .pnone with
  | plist ps =>
    have hiff := runPhases_ok_nil_iff ps 1
    cases hr : runPhases 1 ps with
    | error e =>
      rw [hr] at hiff
      simp only [reduceCtorEq, false_iff] at hiff
      simp [validate, codeContractB, hp, hr, hiff]
    | ok perrs =>
      rw [hr] at hiff
      simp only [Except.ok.injEq] at hiff
      by_cases hc : ps.length < PHASE_MIN
      · simp [validate, codeContractB, hp, hr, hc, hiff, Nat.not_le.mpr hc]
      · simp [validate, codeContractB, hp, hr, hc, hiff, Nat.not_lt.mp hc]
  | pstr s => simp [validate, codeContractB, hp, msgMissingPhases]
  | pint n => simp [validate, codeContractB, hp, msgMissingPhases]
  | pbool b => simp [validate, codeContractB, hp, msgMissingPhases]
  | pnone => simp [validate, codeContractB, hp, msgMissingPhases]
  | pdict gs => simp [validate, codeContractB, hp, msgMissingPhases]

/-!
## The fully-valid family passes every code check
-/

/-- A family-shaped task list is fully valid. -/
theorem familyTasksB_imp (ts : List PyVal) :
    ∀ prev, familyTasksB prev ts = true → tasksValidB prev ts = true := by
  induction ts with
  | nil => intro prev h; simp [tasksValidB]
  | cons t rest ih =>
    intro prev h
    cases t with
    | pdict fs =>
      cases hid : lookupKey fs "task_id" with
      | some v =>
        cases v with
        | pstr s =>
          have htid : tidOf fs = s := by simp [tidOf, hid, pyStr]
          cases hx : extract_index s 'T' with
          | some i =>
            simp only [familyTasksB, hid, hx, Bool.and_eq_true, decide_eq_true_eq] at h
            obtain ⟨⟨h1, hd⟩, hrest⟩ := h
            simp [tasksValidB, htid, hx, h1, hd, ih i hrest]
          | none => simp [familyTasksB, hid, hx] at h
        | pint n => simp [familyTasksB, hid] at h
        | pbool b => simp [familyTasksB, hid] at h
        | pnone => simp [familyTasksB, hid] at h
        | plist xs => simp [familyTasksB, hid] at h
        | pdict gs => simp [familyTasksB, hid] at h
      | none => simp [familyTasksB, hid] at h
    | pstr s => simp [familyTasksB] at h
    | pint n => simp [familyTasksB] at h
    | pbool b => simp [familyTasksB] at h
    | pnone => simp [familyTasksB] at h
    | plist xs => simp [familyTasksB] at h

/-- A family-shaped milestone list is fully valid — for any phase display
identifier, since every family milestone carries its own `milestone_id`. -/
theorem familyMilestonesB_imp (pidS : String) (ms : List PyVal) :
    ∀ prev, familyMilestonesB prev ms = true → milestonesValidB pidS prev ms = true := by
  induction ms with
  | nil => intro prev h; simp [milestonesValidB]
  | cons m rest ih =>
    intro prev h
    cases m with
    | pdict fs =>
      cases hid : lookupKey fs "milestone_id" with
      | some v =>
        cases v with
        | pstr s =>
          have hmid : midOf pidS fs = s := by simp [midOf, hid, pyStr]
          cases hx : extract_index s 'M' with
          | some i =>
            cases ht : (lookupKey fs "tasks").getD .pnone with
            | plist ts =>
              simp only [familyMilestonesB, hid, hx, ht, Bool.and_eq_true,
                decide_eq_true_eq] at h
              obtain ⟨⟨⟨⟨h1, hlen, hft⟩, hu⟩, hg⟩, hrest⟩ := h
              simp [milestonesValidB, hmid, hx, milestoneBodyValidB, ht, h1, hlen, hu, hg,
                familyTasksB_imp ts 0 hft, ih i hrest]
            | pstr s2 => simp [familyMilestonesB, hid, hx, ht] at h
            | pint n => simp [familyMilestonesB, hid, hx, ht] at h
            | pbool b => simp [familyMilestonesB, hid, hx, ht] at h
            | pnone => simp [familyMilestonesB, hid, hx, ht] at h
            | pdict gs => simp [familyMilestonesB, hid, hx, ht] at h
          | none => simp [familyMilestonesB, hid, hx] at h
        | pint n => simp [familyMilestonesB, hid] at h
        | pbool b => simp [familyMilestonesB, hid] at h
        | pnone => simp [familyMilestonesB, hid] at h
        | plist xs => simp [familyMilestonesB, hid] at h
        | pdict gs => simp [familyMilestonesB, hid] at h
      | none => simp [familyMilestonesB, hid] at h
    | pstr s => simp [familyMilestonesB] at h
    | pint n => simp [familyMilestonesB] at h
    | pbool b => simp [familyMilestonesB] at h
    | pnone => simp [familyMilestonesB] at h
    | plist xs => simp [familyMilestonesB] at h

/-- A family-shaped phase is fully valid. -/
theorem familyPhaseB_imp (idx : Nat) (p : PyVal) :
    familyPhaseB idx p = true → phaseValidB idx p = true := by
  cases p with
  | pdict fs =>
    intro h
    cases hw : (lookupKey fs "waves").getD .pnone with
    | plist waves =>
      cases hm : (lookupKey fs "milestones").getD .pnone with
      | plist ms =>
        simp only [familyPhaseB, hw, hm, Bool.and_eq_true, decide_eq_true_eq] at h
        obtain ⟨⟨hwlen, hmlen, hfm⟩, hgate⟩ := h
        simp [phaseValidB, wavesValidB, hw, hm, hmlen, hgate, hwlen,
          familyMilestonesB_imp (pidOf idx fs) ms 0 hfm]
      | pstr s => simp [familyPhaseB, hw, hm] at h
      | pint n => simp [familyPhaseB, hw, hm] at h
      | pbool b => simp [familyPhaseB, hw, hm] at h
      | pnone => simp [familyPhaseB, hw, hm] at h
      | pdict gs => simp [familyPhaseB, hw, hm] at h
    | pstr s => simp [familyPhaseB, hw] at h
    | pint n => simp [familyPhaseB, hw] at h
    | pbool b => simp [familyPhaseB, hw] at h
    | pnone => simp [familyPhaseB, hw] at h
    | pdict gs => simp [familyPhaseB, hw] at h
  | pstr s => intro h; simp [familyPhaseB] at h
  | pint n => intro h; simp [familyPhaseB] at h
  | pbool b => intro h; simp [familyPhaseB] at h
  | pnone => intro h; simp [familyPhaseB] at h
  | plist xs => intro h; simp [familyPhaseB] at h

/-- A family-shaped phase list is fully valid. -/
theorem familyPhasesB_imp (ps : List PyVal) :
    ∀ idx, familyPhasesB idx ps = true → phasesValidB idx ps = true := by
  induction ps with
  | nil => intro idx h; simp [phasesValidB]
  | cons p rest ih =>
    intro idx h
    simp only [familyPhasesB, Bool.and_eq_true] at h
    simp [phasesValidB, familyPhaseB_imp idx p h.1, ih (idx + 1) h.2]

/-!
## `validate` raises nothing on well-shaped input
-/

/-- One task-loop iteration on a mapping never raises. -/
theorem taskStep_isOk (pidS midS : String) (prev : Nat) (fs : List (String × PyVal)) :
    ∃ pr, taskStep pidS midS prev (.pdict fs) = .ok pr :=
  ⟨_, rfl⟩

/-- The task loop raises nothing when every task element is a mapping. -/
theorem runTasks_isOk (pidS midS : String) (ts : List PyVal) :
    ∀ prev, (∀ t ∈ ts, t.isPdict = true) →
      ∃ errs, runTasks pidS midS prev ts = .ok errs := by
  induction ts with
  | nil => intro prev h; exact ⟨[], rfl⟩
  | cons t rest ih =>
    intro prev h
    have ht := h t (List.mem_cons_self t rest)
    cases t with
    | pdict fs =>
      obtain ⟨⟨e1, p1⟩, hstep⟩ := taskStep_isOk pidS midS prev fs
      obtain ⟨errs2, h2⟩ := ih p1 (fun u hu => h u (List.mem_cons_of_mem _ hu))
      exact ⟨e1 ++ errs2, by simp [runTasks, hstep, h2]⟩
    | pstr s => simp [PyVal.isPdict] at ht
    | pint n => simp [PyVal.isPdict] at ht
    | pbool b => simp [PyVal.isPdict] at ht
    | pnone => simp [PyVal.isPdict] at ht
    | plist xs => simp [PyVal.isPdict] at ht

/-- The milestone body raises nothing on a well-shaped milestone. -/
theorem milestoneBodyErrors_isOk (pidS midS : String) (fs : List (String × PyVal))
    (h : wellShapedMilestoneB (.pdict fs) = true) :
    ∃ errs, milestoneBodyErrors pidS midS fs = .ok errs := by
  cases ht : (lookupKey fs "tasks").getD .pnone with
  | plist ts =>
    have hall : ∀ t ∈ ts, t.isPdict = true := by
      simp only [wellShapedMilestoneB, ht, List.all_eq_true] at h
      exact h
    obtain ⟨errs, he⟩ := runTasks_isOk pidS midS ts 0 hall
    simp only [milestoneBodyErrors, ht, he]
    exact ⟨_, rfl⟩
  | pstr s => (simp only [milestoneBodyErrors, ht]; exact ⟨_, rfl⟩)
  | pint n => (simp only [milestoneBodyErrors, ht]; exact ⟨_, rfl⟩)
  | pbool b => (simp only [milestoneBodyErrors, ht]; exact ⟨_, rfl⟩)
  | pnone => (simp only [milestoneBodyErrors, ht]; exact ⟨_, rfl⟩)
  | pdict gs => (simp only [milestoneBodyErrors, ht]; exact ⟨_, rfl⟩)

/-- One milestone-loop iteration raises nothing on a well-shaped milestone. -/
theorem milestoneStep_isOk (pidS : String) (prev : Nat) (m : PyVal)
    (h : wellShapedMilestoneB m = true) :
    ∃ pr, milestoneStep pidS prev m = .ok pr := by
  cases m with
  | pdict fs =>
    obtain ⟨errs, he⟩ := milestoneBodyErrors_isOk pidS (midOf pidS fs) fs h
    simp only [milestoneStep, he]
    exact ⟨_, rfl⟩
  | pstr s => simp [wellShapedMilestoneB] at h
  | pint n => simp [wellShapedMilestoneB] at h
  | pbool b => simp [wellShapedMilestoneB] at h
  | pnone => simp [wellShapedMilestoneB] at h
  | plist xs => simp [wellShapedMilestoneB] at h

/-- The milestone loop raises nothing when every milestone (and every task
below) is well shaped. -/
theorem runMilestones_isOk (pidS : String) (ms : List PyVal) :
    ∀ prev, (∀ m ∈ ms, wellShapedMilestoneB m = true) →
      ∃ errs, runMilestones pidS prev ms = .ok errs := by
  induction ms with
  | nil => intro prev h; exact ⟨[], rfl⟩
  | cons m rest ih =>
    intro prev h
    obtain ⟨⟨e1, p1⟩, hstep⟩ :=
      milestoneStep_isOk pidS prev m (h m (List.mem_cons_self m rest))
    obtain ⟨errs2, h2⟩ := ih p1 (fun u hu => h u (List.mem_cons_of_mem _ hu))
    exact ⟨e1 ++ errs2, by simp [runMilestones, hstep, h2]⟩

/-- The phase-loop body raises nothing on a well-shaped phase. -/
theorem phaseErrors_isOk (idx : Nat) (p : PyVal) (h : wellShapedPhaseB p = true) :
    ∃ errs, phaseErrors idx p = .ok errs := by
  cases p with
  | pdict fs =>
    cases hm : (lookupKey fs "milestones").getD .pnone with
    | plist ms =>
      have hall : ∀ m ∈ ms, wellShapedMilestoneB m = true := by
        simp only [wellShapedPhaseB, hm, List.all_eq_true] at h
        exact h
      obtain ⟨errs, he⟩ := runMilestones_isOk (pidOf idx fs) ms 0 hall
      simp only [phaseErrors, hm, he]
      exact ⟨_, rfl⟩
    | pstr s => (simp only [phaseErrors, hm]; exact ⟨_, rfl⟩)
    | pint n => (simp only [phaseErrors, hm]; exact ⟨_, rfl⟩)
    | pbool b => (simp only [phaseErrors, hm]; exact ⟨_, rfl⟩)
    | pnone => (simp only [phaseErrors, hm]; exact ⟨_, rfl⟩)
    | pdict gs => (simp only [phaseErrors, hm]; exact ⟨_, rfl⟩)
  | pstr s => simp [wellShapedPhaseB] at h
  | pint n => simp [wellShapedPhaseB] at h
  | pbool b => simp [wellShapedPhaseB] at h
  | pnone => simp [wellShapedPhaseB] at h
  | plist xs => simp [wellShapedPhaseB] at h

/-- The phase loop raises nothing when every phase is well shaped. -/
theorem runPhases_isOk (ps : List PyVal) :
    ∀ idx, (∀ p ∈ ps, wellShapedPhaseB p = true) →
      ∃ errs, runPhases idx ps = .ok errs := by
  induction ps with
  | nil => intro idx h; exact ⟨[], rfl⟩
  | cons p rest ih =>
    intro idx h
    obtain ⟨e1, hp⟩ := phaseErrors_isOk idx p (h p (List.mem_cons_self p rest))
    obtain ⟨errs2, h2⟩ := ih (idx + 1) (fun u hu => h u (List.mem_cons_of_mem _ hu))
    exact ⟨e1 ++ errs2, by simp [runPhases, hp, h2]⟩

example : validate [] = .ok ["Missing required array: phases"] := rfl

example : extract_index "P01-M3-T12" 'M' = some 3 := rfl
example : extract_index "P01-M3-T12" 'T' = some 12 := rfl
example : extract_index "task-x" 'T' = none := rfl
example : extract_index "MM37b" 'M' = some 37 := rfl

example : validate [("phases", .plist [.pint 0])] = .error "AttributeError" := rfl

example : validate [("phases", .plist [.pdict []])] =
    .ok ["phase_count=1 < 7", "phase[1]: missing waves[]", "phase[1]: missing milestones[]"] := rfl

example : specContractB famDoc7 = true := rfl

/-!
## The claims
-/

/-- C1, counterexample: `validate` returns the empty list on `quirkDoc`
although `quirkDoc` does not fully satisfy the contract as the
specification words it — its first phase's first milestone has no
`milestone_id` at all, yet the marker is found in the substituted display
identifier built from `phase_id`.  So "empty iff the document fully
satisfies the contract" fails left-to-right. -/
theorem c1_counterexample :
    validate quirkDoc = .ok [] ∧ specContractB quirkDoc = false :=
  ⟨rfl, rfl⟩

/-- C1, amended: `validate` returns an empty list if and only if the
document satisfies the contract *with the sequence markers searched in the
substituted display identifiers* (`str()` of `milestone_id`, defaulting to
`"{pid}:milestone"`; `str()` of `task_id`, defaulting to `""`); in
particular, every document of the fully-valid family (exactly 7 phases,
5 waves, 4 milestones with strictly increasing `M` markers, 15 tasks with
strictly increasing `T` markers, `done_criteria` on every task, both
milestone gates, `phase_end_e2e` everywhere plus both rolling gates after
phase 1) is validated to the empty sequence. -/
theorem c1_validate_empty_iff :
    ∀ plan, (validate plan = .ok [] ↔ codeContractB plan = true) ∧
      (familyValidB plan = true → validate plan = .ok []) := by
  intro plan
  refine ⟨validate_ok_nil_iff plan, fun h => ?_⟩
  rw [validate_ok_nil_iff plan]
  cases hp : (lookupKey plan "phases").getD .pnone with
  | plist ps =>
    simp only [familyValidB, hp, Bool.and_eq_true, decide_eq_true_eq] at h
    simp [codeContractB, hp, familyPhasesB_imp ps 1 h.2, Nat.le_of_eq h.1.symm]
  | pstr s => simp [familyValidB, hp] at h
  | pint n => simp [familyValidB, hp] at h
  | pbool b => simp [familyValidB, hp] at h
  | pnone => simp [familyValidB, hp] at h
  | pdict gs => simp [familyValidB, hp] at h

/-- C1, witness: the concrete fully-valid 7-phase document is in the
family and is validated clean. -/
theorem c1_validate_empty_iff_witness :
    familyValidB famDoc7 = true ∧ validate famDoc7 = .ok [] :=
  ⟨rfl, (c1_validate_empty_iff famDoc7).2 rfl⟩

/-- C2, counterexample: a `phases` element that is not a mapping makes
`validate` raise (`AttributeError` from `phase.get`), so not every failure
on malformed input is returned as data. -/
theorem c2_counterexample :
    validate [("phases", PyVal.plist [PyVal.pint 0])] = .error "AttributeError" :=
  rfl

/-- C2, amended: `validate` raises nothing — all failure information comes
back as the list of violation strings — provided every element of the
`phases`, `milestones` and `tasks` sequences it traverses is a mapping;
absence or wrong type of any *named field* is reported as a violation,
never thrown. -/
theorem c2_validate_no_raise :
    ∀ plan, wellShapedB plan = true → isOk (validate plan) = true := by
  intro plan h
  cases hp : (lookupKey plan "phases").getD .pnone with
  | plist ps =>
    have hall : ∀ p ∈ ps, wellShapedPhaseB p = true := by
      simp only [wellShapedB, hp, List.all_eq_true] at h
      exact h
    obtain ⟨errs, he⟩ := runPhases_isOk ps 1 hall
    simp [validate, isOk, hp, he]
  | pstr s => simp [validate, isOk, hp]
  | pint n => simp [validate, isOk, hp]
  | pbool b => simp [validate, isOk, hp]
  | pnone => simp [validate, isOk, hp]
  | pdict gs => simp [validate, isOk, hp]

/-- C2, witness: a malformed but well-shaped document (wrong-typed `waves`
field) is handled without raising. -/
theorem c2_validate_no_raise_witness :
    wellShapedB [("phases", PyVal.plist [PyVal.pdict [("waves", PyVal.pint 3)]])] = true ∧
    isOk (validate [("phases", PyVal.plist [PyVal.pdict [("waves", PyVal.pint 3)]])]) =
      true :=
  ⟨rfl, c2_validate_no_raise _ rfl⟩

/-- C3, counterexample: in `c3Doc` the only milestone has `tasks` missing
*and* both gates missing; the missing-tasks violation is reported but no
`missing unit_gate` violation appears anywhere in the output, because the
loop body `continue`s past the gate checks. -/
theorem c3_counterexample :
    validate c3Doc = .ok c3Expected ∧ msgMissingUnitGate "phase[1]" "M1" ∉ c3Expected :=
  ⟨rfl, by decide⟩

/-- C3, amended: a milestone whose `tasks` is missing or not a sequence
contributes exactly its marker violations plus the missing-tasks violation
— the `unit_gate` / `integration_gate` checks are skipped along with the
task-level checks — while sibling milestones and the rest of the phase
still proceed. -/
theorem c3_missing_tasks_skips_gates :
    ∀ pidS prev fs, ((lookupKey fs "tasks").getD .pnone).isPlist = false →
      ∃ markerErrs prev',
        milestoneStep pidS prev (.pdict fs) =
          .ok (markerErrs ++ [msgMissingTasks pidS (midOf pidS fs)], prev') ∧
        (∀ rest restErrs, runMilestones pidS prev' rest = .ok restErrs →
          runMilestones pidS prev (.pdict fs :: rest) =
            .ok ((markerErrs ++ [msgMissingTasks pidS (midOf pidS fs)]) ++ restErrs)) := by
  intro pidS prev fs h
  have hstep : milestoneStep pidS prev (.pdict fs) =
      .ok ((markerCheck (msgMissingMMarker pidS (midOf pidS fs))
          (msgMNotStrict pidS (midOf pidS fs)) prev
          (extract_index (midOf pidS fs) 'M')).1 ++
          [msgMissingTasks pidS (midOf pidS fs)],
        (markerCheck (msgMissingMMarker pidS (midOf pidS fs))
          (msgMNotStrict pidS (midOf pidS fs)) prev
          (extract_index (midOf pidS fs) 'M')).2) := by
    cases ht : (lookupKey fs "tasks").getD .pnone with
    | plist ts => (rw [ht] at h; simp [PyVal.isPlist] at h)
    | pstr s => simp [milestoneStep, milestoneBodyErrors, ht]
    | pint n => simp [milestoneStep, milestoneBodyErrors, ht]
    | pbool b => simp [milestoneStep, milestoneBodyErrors, ht]
    | pnone => simp [milestoneStep, milestoneBodyErrors, ht]
    | pdict gs => simp [milestoneStep, milestoneBodyErrors, ht]
  refine ⟨_, _, hstep, ?_⟩
  intro rest restErrs hr
  simp [runMilestones, hstep, hr]

/-- C3, witness: the concrete milestone `M1` with no `tasks` and no gates. -/
theorem c3_missing_tasks_skips_gates_witness :
    ((lookupKey [("milestone_id", PyVal.pstr "M1")] "tasks").getD .pnone).isPlist = false ∧
    ∃ markerErrs prev',
      milestoneStep "P" 0 (.pdict [("milestone_id", PyVal.pstr "M1")]) =
        .ok (markerErrs ++
          [msgMissingTasks "P" (midOf "P" [("milestone_id", PyVal.pstr "M1")])], prev') ∧
      (∀ rest restErrs, runMilestones "P" prev' rest = .ok restErrs →
        runMilestones "P" 0 (.pdict [("milestone_id", PyVal.pstr "M1")] :: rest) =
          .ok ((markerErrs ++
            [msgMissingTasks "P" (midOf "P" [("milestone_id", PyVal.pstr "M1")])]) ++
            restErrs)) :=
  ⟨rfl, c3_missing_tasks_skips_gates "P" 0 [("milestone_id", PyVal.pstr "M1")] rfl⟩

/-- C4: when `phases` is absent or not a sequence, the result is exactly
the single missing-phases violation and nothing else is validated. -/
theorem c4_missing_phases :
    ∀ plan, ((lookupKey plan "phases").getD .pnone).isPlist = false →
      validate plan = .ok [msgMissingPhases] := by
  intro plan h
  cases hp : (lookupKey plan "phases").getD .pnone with
  | plist ps => (rw [hp] at h; simp [PyVal.isPlist] at h)
  | pstr s => simp [validate, hp]
  | pint n => simp [validate, hp]
  | pbool b => simp [validate, hp]
  | pnone => simp [validate, hp]
  | pdict gs => simp [validate, hp]

/-- C4, witness: the empty document. -/
theorem c4_missing_phases_witness :
    ((lookupKey ([] : List (String × PyVal)) "phases").getD .pnone).isPlist = false ∧
    validate [] = .ok [msgMissingPhases] :=
  ⟨rfl, c4_missing_phases [] rfl⟩

/-- C5: the running previous-milestone index starts at 0 and is advanced
only when marker extraction succeeds and the strict-increase comparison
passes — otherwise the step leaves it unchanged; concretely, the milestone
list `M1, M1, M3` yields exactly one sequence violation (for the second
`M1`) and none for `M3`. -/
theorem c5_prev_index_advance :
    (∀ pidS prev fs errs prev',
      milestoneStep pidS prev (.pdict fs) = .ok (errs, prev') →
        prev' = (match extract_index (midOf pidS fs) 'M' with
          | none => prev
          | some i => if i ≤ prev then prev else i)) ∧
    runMilestones "P" 0 c5Milestones = .ok [msgMNotStrict "P" "M1"] := by
  constructor
  · intro pidS prev fs errs prev' h
    cases hb : milestoneBodyErrors pidS (midOf pidS fs) fs with
    | error e => simp only [milestoneStep, hb, reduceCtorEq] at h
    | ok body =>
      simp only [milestoneStep, hb, Except.ok.injEq, Prod.mk.injEq] at h
      obtain ⟨-, h2⟩ := h
      subst h2
      cases hx : extract_index (midOf pidS fs) 'M' with
      | none => simp [markerCheck, hx]
      | some i => by_cases hle : i ≤ prev <;> simp [markerCheck, hx, hle]
  · rfl

/-- C5, witness: a milestone `M1` (with no further fields) steps the
running index from 0 to 1. -/
theorem c5_prev_index_advance_witness :
    (1 : Nat) = (match extract_index (midOf "P" [("milestone_id", PyVal.pstr "M1")]) 'M' with
      | none => 0
      | some i => if i ≤ 0 then 0 else i) :=
  c5_prev_index_advance.1 "P" 0 [("milestone_id", PyVal.pstr "M1")]
    ["P: M1: missing tasks[]"] 1 rfl

/-- C6: a task whose identifier carries no `T<digits>` marker yields a
missing-marker violation and leaves the per-milestone running task index
(started at 0 for each milestone) unchanged; concretely, milestone `M1`
with tasks `"task-x"` then `"T1"` reports only the count and the missing
marker — `T1` is accepted as the first valid index with no sequence
violation. -/
theorem c6_missing_marker_no_advance :
    (∀ pidS midS prev fs errs prev',
      taskStep pidS midS prev (.pdict fs) = .ok (errs, prev') →
      extract_index (tidOf fs) 'T' = none →
        prev' = prev ∧ msgMissingTMarker pidS midS (tidOf fs) ∈ errs) ∧
    milestoneStep "P" 0 c6Milestone =
      .ok ([msgTaskCount "P" "M1" 2, msgMissingTMarker "P" "M1" "task-x"], 1) := by
  constructor
  · intro pidS midS prev fs errs prev' h hx
    simp only [taskStep, markerCheck, hx, Except.ok.injEq, Prod.mk.injEq] at h
    obtain ⟨he, h2⟩ := h
    refine ⟨h2.symm, ?_⟩
    rw [← he]
    simp
  · rfl

/-- C6, witness: the concrete task `"task-x"` leaves the index at 0 and
reports the missing marker. -/
theorem c6_missing_marker_no_advance_witness :
    (0 : Nat) = 0 ∧ msgMissingTMarker "P" "M1" "task-x" ∈
      [msgMissingTMarker "P" "M1" "task-x"] :=
  c6_missing_marker_no_advance.1 "P" "M1" 0
    [("task_id", PyVal.pstr "task-x"), ("done_criteria", PyVal.pstr "ok")]
    [msgMissingTMarker "P" "M1" "task-x"] 0 rfl rfl

/-- C7, counterexample: phase 2 of `c7BadDoc` has `phase_gates` absent
(defaulting to empty) and both rolling gates absent, yet no rolling-gate
violation is emitted — its missing `milestones` made the loop body
`continue` before the gate checks. -/
theorem c7_counterexample :
    validate c7BadDoc = .ok c7BadExpected ∧
    msgMissingRollingInter "phase[2]" ∉ c7BadExpected :=
  ⟨rfl, by decide⟩

/-- C7, amended: for every phase after the first whose `milestones` field
is a sequence (so the loop body reaches the gate checks) and whose
`phase_gates` is a mapping or absent, each of the two rolling gates that is
absent is reported; the first phase is exempt — concretely, omitting
`rolling_inter_phase_integration` on phases 1 and 2 of an otherwise fully
valid document yields exactly one violation, for phase 2. -/
theorem c7_rolling_gates :
    (∀ idx fs ms gates errs,
      (lookupKey fs "milestones").getD .pnone = .plist ms →
      (lookupKey fs "phase_gates").getD (.pdict []) = .pdict gates →
      phaseErrors idx (.pdict fs) = .ok errs →
      1 < idx →
        (lookupKey gates "rolling_inter_phase_integration" = none →
          msgMissingRollingInter (pidOf idx fs) ∈ errs) ∧
        (lookupKey gates "rolling_cumulative_e2e" = none →
          msgMissingRollingCumulative (pidOf idx fs) ∈ errs)) ∧
    validate c7ExDoc = .ok [msgMissingRollingInter "P2"] := by
  constructor
  · intro idx fs ms gates errs hm hg herr hidx
    cases hr : runMilestones (pidOf idx fs) 0 ms with
    | error e => simp only [phaseErrors, hm, hr, reduceCtorEq] at herr
    | ok mErrs =>
      simp only [phaseErrors, hm, hr, Except.ok.injEq] at herr
      subst herr
      constructor
      · intro hnone
        simp [phaseGateErrors, hg, hidx, hnone]
      · intro hnone
        simp [phaseGateErrors, hg, hidx, hnone]
  · rfl

/-- C7, witness: a bare phase at position 2 whose `milestones` is an empty
sequence and whose `phase_gates` is absent gets both rolling-gate
violations. -/
theorem c7_rolling_gates_witness :
    msgMissingRollingInter "phase[2]" ∈ c7WitnessErrs ∧
    msgMissingRollingCumulative "phase[2]" ∈ c7WitnessErrs :=
  ⟨(c7_rolling_gates.1 2 c7PhaseFields [] [] c7WitnessErrs rfl rfl rfl
      (by decide)).1 rfl,
   (c7_rolling_gates.1 2 c7PhaseFields [] [] c7WitnessErrs rfl rfl rfl
      (by decide)).2 rfl⟩

/-- C8: a 6-phase otherwise fully valid document yields exactly one
violation, and it mentions the phase count; the count violation blocks no
traversal — six empty phases still produce all their per-phase violations
after it. -/
theorem c8_phase_count :
    (∀ plan, family6ValidB plan = true → validate plan = .ok [msgPhaseCount 6]) ∧
    validate c8NonBlockDoc = .ok (msgPhaseCount 6 :: c8NonBlockTail) := by
  constructor
  · intro plan h
    cases hp : (lookupKey plan "phases").getD .pnone with
    | plist ps =>
      simp only [family6ValidB, hp, Bool.and_eq_true, decide_eq_true_eq] at h
      obtain ⟨hlen, hfam⟩ := h
      have hrun : runPhases 1 ps = .ok [] :=
        (runPhases_ok_nil_iff ps 1).mpr (familyPhasesB_imp ps 1 hfam)
      simp [validate, hp, hrun, hlen, PHASE_MIN]
    | pstr s => simp [family6ValidB, hp] at h
    | pint n => simp [family6ValidB, hp] at h
    | pbool b => simp [family6ValidB, hp] at h
    | pnone => simp [family6ValidB, hp] at h
    | pdict gs => simp [family6ValidB, hp] at h
  · rfl

/-- C8, witness: the concrete otherwise-fully-valid 6-phase document. -/
theorem c8_phase_count_witness :
    family6ValidB famDoc6 = true ∧ validate famDoc6 = .ok [msgPhaseCount 6] :=
  ⟨rfl, c8_phase_count.1 famDoc6 rfl⟩

/-- C9: `validate` is deterministic — it is a pure function of the input
document (all state in the embedding is local), so two invocations on the
same unmodified input return identical ordered violation lists. -/
theorem c9_deterministic :
    ∀ p q : List (String × PyVal), p = q → validate p = validate q := by
  intro p q h
  rw [h]

/-- C9, witness. -/
theorem c9_deterministic_witness : validate famDoc7 = validate famDoc7 :=
  c9_deterministic famDoc7 famDoc7 rfl

/-- C10: a milestone with no `milestone_id` inside a phase whose
`phase_id` contains `M` followed by digits draws its marker from the
substituted display identifier: no missing-marker violation is emitted and
the digits from `phase_id` (here 2, from `"M2-alpha"`) become its running
sequence index; a full 7-phase document built this way is validated
clean. -/
theorem c10_default_display_id :
    milestoneStep "M2-alpha" 0 noIdMilestone = .ok ([], 2) ∧ validate c10Doc = .ok [] :=
  ⟨rfl, rfl⟩

end Sage
